import Mathlib

/-!
Verification of the calldata shape inferencer (`src/calldata-guesser/guess.ts`).

Modelling conventions.
* Byte buffers (`Uint8Array`) are `List Nat`, one entry per byte; JavaScript
  numbers used for offsets and lengths are `Nat` (the source guards every word
  it uses with `isSafeNumber`, so its arithmetic is exact).
* ethers `ParamType` values are the inductive `ParamTy`, restricted to the type
  algebra the program constructs.  The source round-trips types through
  `ParamType.from`/`format()` strings; on the algebra it constructs this
  round-trip is the identity, so structured types are carried directly and the
  source's string comparisons are modelled with `ParamTy.format`.
* The external ABI oracle (ethers `defaultAbiCoder.decode` followed by the
  `toString` canonicalisation, spec sections 4.2 and 6) and the UTF-8 check of
  `ethers.utils.toUtf8String` are an abstract parameter `Ext`; a computation
  that throws is modelled as returning `none`.
* Recursive procedures are embedded with an explicit fuel parameter
  (structural on fuel, so the kernel can evaluate them).  Their results are
  `Option (Option _)`: the outer layer is `none` exactly when fuel ran out (a
  model artifact that never occurs for the budgets the drivers pass), the
  inner layer is the JavaScript `null`/`undefined` result.
-/

namespace AbiGuess

/-- Byte buffers: each element is one byte of a `Uint8Array`. -/
abbrev Bytes := List Nat

/-- JavaScript `arr.slice(s, e)`: elements from index `s` (inclusive) to `e`
(exclusive), clamped to the array, empty when `s ≥ e`. -/
def jsSlice {α : Type} (data : List α) (s e : Nat) : List α := (data.take e).drop s

/-- `BigInt(ethers.utils.hexlify(data.slice(pos, pos + 32)))`: the big-endian
value of the 32-byte word at `pos` (fewer bytes if the buffer ends sooner). -/
def readWord (data : Bytes) (pos : Nat) : Nat :=
  (jsSlice data pos (pos + 32)).foldl (fun acc b => acc * 256 + b) 0

/-- `isSafeNumber`: strictly below `Number.MAX_SAFE_INTEGER = 2^53 - 1`. -/
def isSafeNumber (val : Nat) : Bool := val < 9007199254740991

/-- `tryParseOffset(data, pos)`: the word at `pos` if it is a plausible offset
into `data` (safe, strictly beyond `pos`, inside the buffer, 32-aligned). -/
def tryParseOffset (data : Bytes) (pos : Nat) : Option Nat :=
  let bigOffset := readWord data pos
  if ¬ isSafeNumber bigOffset then none
  else if bigOffset ≤ pos then none
  else if bigOffset ≥ data.length then none
  else if bigOffset % 32 ≠ 0 then none
  else some bigOffset

/-- `tryParseLength(data, offset)`: the word at `offset` if it is a plausible
length for data starting right after it. -/
def tryParseLength (data : Bytes) (offset : Nat) : Option Nat :=
  let bigLength := readWord data offset
  if ¬ isSafeNumber bigLength then none
  else if offset + 32 + bigLength > data.length then none
  else some bigLength

/-- `countLeadingZeros(arr)`. -/
def countLeadingZeros (arr : Bytes) : Nat :=
  (arr.takeWhile (fun b => b == 0)).length

/-- `countTrailingZeros(arr)`. -/
def countTrailingZeros (arr : Bytes) : Nat :=
  (arr.reverse.takeWhile (fun b => b == 0)).length

/-- The ABI type algebra the program manipulates (ethers `ParamType`s,
restricted to the constructors the inferencer and the prettifier build). -/
inductive ParamTy where
  | uint256 : ParamTy
  | bytes32 : ParamTy
  | bytes : ParamTy
  | string : ParamTy
  | address : ParamTy
  | bytesN (n : Nat) : ParamTy
  | tuple (components : List ParamTy) : ParamTy
  | array (child : ParamTy) : ParamTy

mutual

/-- `ParamType.format()`: canonical Solidity-style type string. -/
def ParamTy.format : ParamTy → String
  | .uint256 => "uint256"
  | .bytes32 => "bytes32"
  | .bytes => "bytes"
  | .string => "string"
  | .address => "address"
  | .bytesN n => "bytes" ++ toString n
  | .tuple cs => "(" ++ ParamTy.formatList cs ++ ")"
  | .array c => ParamTy.format c ++ "[]"

/-- Comma-separated formatting of a component list (ethers `join(',')`). -/
def ParamTy.formatList : List ParamTy → String
  | [] => ""
  | [t] => ParamTy.format t
  | t :: ts => ParamTy.format t ++ "," ++ ParamTy.formatList ts

end

mutual

/-- Structural equality of `ParamTy`. -/
def ParamTy.beq : ParamTy → ParamTy → Bool
  | .uint256, .uint256 => true
  | .bytes32, .bytes32 => true
  | .bytes, .bytes => true
  | .string, .string => true
  | .address, .address => true
  | .bytesN n, .bytesN m => n == m
  | .tuple cs, .tuple ds => ParamTy.beqList cs ds
  | .array c, .array d => ParamTy.beq c d
  | _, _ => false

/-- Structural equality of `ParamTy` lists. -/
def ParamTy.beqList : List ParamTy → List ParamTy → Bool
  | [], [] => true
  | t :: ts, u :: us => ParamTy.beq t u && ParamTy.beqList ts us
  | _, _ => false

end

/-- `v.baseType === 'tuple'`. -/
def isTupleTy : ParamTy → Bool
  | .tuple _ => true
  | _ => false

/-- `v.baseType === 'array'`. -/
def isArrayTy : ParamTy → Bool
  | .array _ => true
  | _ => false

/-- `v.components` (undefined, modelled `none`, on a non-tuple). -/
def componentsOf : ParamTy → Option (List ParamTy)
  | .tuple cs => some cs
  | _ => none

/-- `v.arrayChildren` (undefined, modelled `none`, on a non-array). -/
def arrayChildOf : ParamTy → Option ParamTy
  | .array c => some c
  | _ => none

/-- Decoded values as returned by the external ABI decoder: 32-byte scalar
words, byte blobs, arrays, tuples, and the JavaScript `undefined` produced by
out-of-range indexing. -/
inductive Val where
  | word (bs : Bytes) : Val
  | blob (bs : Bytes) : Val
  | arr (vs : List Val) : Val
  | tup (vs : List Val) : Val
  | undef : Val

/-- The external collaborators (spec sections 4.2 and 6): the reference ABI
decoder with its canonical-text coercion (`none` = any error from either
step), and the UTF-8 validity check behind `ethers.utils.toUtf8String`. -/
structure Ext where
  decode : List ParamTy → Bytes → Option (List Val)
  validUtf8 : Bytes → Bool

/-- A guessed function fragment, reduced to its parameter list (the source's
fragment name `guessed`/`guessed_<hex>` is cosmetic, spec section 3). -/
abbrev Frag := List ParamTy

/-- `testFragment`: the candidate is valid when the oracle decodes the data
under its inputs and every value coerces to text (guess.ts lines 132-142). -/
def testFragment (ext : Ext) (data : Bytes) (fragment : Frag) : Bool :=
  (ext.decode fragment data).isSome

/-- The recurring source pattern
`const fragment = <r>; if (testFragment(fragment)) return fragment;` followed
by fall-through code `k`.  The outer `Option` layer is fuel exhaustion. -/
def tryRet (ext : Ext) (data : Bytes) (r : Option (Option Frag))
    (k : Unit → Option (Option Frag)) : Option (Option Frag) :=
  match r with
  | none => none
  | some none => k ()
  | some (some fragment) =>
      if testFragment ext data fragment then some (some fragment) else k ()

/-- A dynamic placeholder `{offset, length?}` (guess.ts lines 94-100). -/
structure DynamicPlaceholder where
  offset : Nat
  length : Option Nat

/-- One entry of `collectedParams`: a resolved `ParamType` or a placeholder. -/
inductive DecodedParam where
  | resolved (t : ParamTy) : DecodedParam
  | dyn (p : DynamicPlaceholder) : DecodedParam

/-- The mode constraint `{depth, assumeLength}` (guess.ts lines 104-107). -/
structure DynamicOnlyParams where
  depth : Nat
  assumeLength : Bool

/-- Gate of the pointer-with-length branch (guess.ts lines 396-398):
`dynamicOnlyParams === null || (depth === dop.depth && dop.assumeLength)`. -/
def gateWithLength (mode : Option DynamicOnlyParams) (depth : Nat) : Bool :=
  match mode with
  | none => true
  | some p => depth == p.depth && p.assumeLength

/-- Gate of the pointer-without-length branch (guess.ts line 413). -/
def gateWithoutLength (mode : Option DynamicOnlyParams) (depth : Nat) : Bool :=
  match mode with
  | none => true
  | some p => depth == p.depth && !p.assumeLength

/-- Condition under which the static classification is refused
(guess.ts lines 429-431): `dynamicOnlyParams !== null && depth === dop.depth`. -/
def staticForbidden (mode : Option DynamicOnlyParams) (depth : Nat) : Bool :=
  match mode with
  | none => false
  | some p => depth == p.depth

/-- Lines 189-196: the condition under which a dynamic placeholder of length
`maybeDynamicElementLen` with tail `dynamicData` is classified as `bytes`.
`lastWord` is `Math.floor(len / 32) * 32`. -/
def bytesLikeCheck (maybeDynamicElementLen : Nat) (dynamicData : Bytes)
    (isTrailingDynamicParam : Bool) : Bool :=
  let lastWord := maybeDynamicElementLen / 32 * 32
  (maybeDynamicElementLen == 0 && dynamicData.length == 0) ||
  (decide (0 < maybeDynamicElementLen) &&
    ((maybeDynamicElementLen % 32 == 0 &&
        (isTrailingDynamicParam || maybeDynamicElementLen == dynamicData.length)) ||
      decide (32 - maybeDynamicElementLen % 32 ≤
        countTrailingZeros (jsSlice dynamicData lastWord (lastWord + 32)))))

/-- The type of the recursive entry `decodeWellFormedTuple(depth, data,
paramIdx, collectedParams, endOfStaticCalldata, dynamicOnlyParams)` as seen by
the tail-resolution helpers. -/
abbrev Recur :=
  Nat → Bytes → Nat → List DecodedParam → Nat → Option DynamicOnlyParams →
    Option (Option Frag)

/-- Lines 216-268: the tail is an array whose elements are dynamically encoded
(each of the first `len` words of the tail parses as an offset).  Recurse under
both mode constraints, prefer the assume-length result, require exactly `len`
inputs of one formatted type, and emit `E[]`. -/
def dynArrayOffsets (recur : Recur) (depth len : Nat) (dynamicData : Bytes) :
    Option (Option ParamTy) :=
  let decodedAssumingLength :=
    recur (depth + 1) dynamicData 0 [] dynamicData.length
      (some ⟨depth + 1, true⟩)
  let decodedAssumingNoLength :=
    recur (depth + 1) dynamicData 0 [] dynamicData.length
      (some ⟨depth + 1, false⟩)
  match decodedAssumingLength, decodedAssumingNoLength with
  | none, _ => none
  | some _, none => none
  | some a, some b =>
      match a.orElse (fun _ => b) with
      | none => some none
      | some decodedToUse =>
          if decodedToUse.length ≠ len then some none
          else
            let allResults := (decodedToUse.map ParamTy.format).dedup
            if allResults.length ≠ 1 then some none
            else
              match decodedToUse with
              | [] => some none
              | e :: _ => some (some (ParamTy.array e))

/-- Lines 290-305: decode each static element slice as a tuple, collecting the
formatted tuple strings; `none`/`some none` propagate fuel exhaustion and
element failure. -/
def staticElemsGo (recur : Recur) (depth : Nat) (dynamicData : Bytes)
    (elemSizeWords : Nat) : List Nat → Option (Option (List Frag))
  | [] => some (some [])
  | elemIdx :: rest =>
      match recur (depth + 1)
          (jsSlice dynamicData (elemIdx * elemSizeWords * 32)
            ((elemIdx + 1) * elemSizeWords * 32))
          0 [] (elemSizeWords * 32) none with
      | none => none
      | some none => some none
      | some (some fragment) =>
          match staticElemsGo recur depth dynamicData elemSizeWords rest with
          | none => none
          | some none => some none
          | some (some rs) => some (some (fragment :: rs))

/-- Lines 287-313: the element size in words, the per-element decode, the
consistency check over formatted tuple strings, and the emitted `(…)[]`. -/
def staticElemsLoop (recur : Recur) (depth len : Nat) (dynamicData : Bytes) :
    Option (Option ParamTy) :=
  let elemSizeWords := dynamicData.length / (32 * len)
  match staticElemsGo recur depth dynamicData elemSizeWords (List.range len) with
  | none => none
  | some none => some none
  | some (some frs) =>
      let allResults :=
        (frs.map (fun f => "(" ++ ParamTy.formatList f ++ ")")).dedup
      if allResults.length > 1 then some none
      else
        match frs with
        | [] => some none
        | f :: _ => some (some (ParamTy.array (ParamTy.tuple f)))

/-- Lines 269-286: elements carry no offsets, so they are statically sized.
`(dynamicData.length / 32) % len !== 0` (exact float arithmetic) is
`dynamicData.length % (32 * len) ≠ 0`; uneven data is only tolerated on the
trailing placeholder, truncating to the largest multiple. -/
def staticElems (recur : Recur) (depth len : Nat) (dynamicData : Bytes)
    (isTrailingDynamicParam : Bool) : Option (Option ParamTy) :=
  if dynamicData.length % (32 * len) ≠ 0 then
    if ¬ isTrailingDynamicParam then some none
    else
      staticElemsLoop recur depth len
        (jsSlice dynamicData 0 (dynamicData.length / (32 * len) * len * 32))
  else staticElemsLoop recur depth len dynamicData

/-- Lines 319-358: decode the tail as a tuple; with a length, chunk the inputs
into `len` equal parts of identical formatted shape, collapsing a singleton
chunk to `E[]` (except a `bytes` chunk, kept as `bytes`), otherwise emit the
tuple itself.  JavaScript `x % 0` is `NaN`, so a zero length always fails the
evenness test. -/
def genericTail (recur : Recur) (depth : Nat) (maybeDynamicElementLen : Option Nat)
    (dynamicData : Bytes) : Option (Option ParamTy) :=
  match recur (depth + 1) dynamicData 0 [] dynamicData.length none with
  | none => none
  | some none => some none
  | some (some fragment) =>
      let inputs := fragment
      match maybeDynamicElementLen with
      | some len =>
          match len with
          | 0 => some none
          | _ + 1 =>
            if inputs.length % len ≠ 0 then some none
            else
              let numPerElement := inputs.length / len
              let chunks := (List.range len).map
                (fun i => jsSlice inputs (i * numPerElement) ((i + 1) * numPerElement))
              if ((chunks.map (fun c => String.intercalate "," (c.map ParamTy.format))).dedup).length
                  ≠ 1 then some none
              else
                match chunks with
                | [] => some none
                | result :: _ =>
                    match result with
                    | [r] =>
                        if ParamTy.beq r ParamTy.bytes then some (some r)
                        else some (some (ParamTy.array r))
                    | _ => some (some (ParamTy.array (ParamTy.tuple result)))
      | none => some (some (ParamTy.tuple inputs))

/-- Lines 172-358: resolve one dynamic placeholder against its tail bytes. -/
def resolveOne (recur : Recur) (depth : Nat) (maybeDynamicElementLen : Option Nat)
    (dynamicData : Bytes) (isTrailingDynamicParam : Bool) : Option (Option ParamTy) :=
  match maybeDynamicElementLen with
  | some len =>
      if bytesLikeCheck len dynamicData isTrailingDynamicParam then
        some (some ParamTy.bytes)
      else if decide (32 * len < dynamicData.length) then
        let potentialOffsets :=
          (List.range len).map (fun paramIdx => tryParseOffset dynamicData (paramIdx * 32))
        let elementsHaveOffsets := potentialOffsets.all Option.isSome
        if elementsHaveOffsets then dynArrayOffsets recur depth len dynamicData
        else staticElems recur depth len dynamicData isTrailingDynamicParam
      else genericTail recur depth (some len) dynamicData
  | none => genericTail recur depth none dynamicData

/-- Lines 149-359: walk `collectedParams`, resolving each placeholder from the
filtered list `dynamicParams` (`dynIdx` is the running `dynamicParamIdx`). -/
def resolveParams (recur : Recur) (depth : Nat) (data : Bytes)
    (dynamicParams : List DynamicPlaceholder) :
    List DecodedParam → Nat → Option (Option (List ParamTy))
  | [], _ => some (some [])
  | DecodedParam.resolved t :: rest, dynIdx =>
      match resolveParams recur depth data dynamicParams rest dynIdx with
      | none => none
      | some none => some none
      | some (some ts) => some (some (t :: ts))
  | DecodedParam.dyn _ :: rest, dynIdx =>
      match dynamicParams.get? dynIdx with
      | none => some none
      | some dp =>
          let isTrailingDynamicParam := dynIdx == dynamicParams.length - 1
          let dynamicDataStart := dp.offset + (if dp.length.isNone then 0 else 32)
          let dynamicDataEnd :=
            if isTrailingDynamicParam then data.length
            else ((dynamicParams.get? (dynIdx + 1)).map DynamicPlaceholder.offset).getD
              data.length
          let dynamicData := jsSlice data dynamicDataStart dynamicDataEnd
          match resolveOne recur depth dp.length dynamicData isTrailingDynamicParam with
          | none => none
          | some none => some none
          | some (some ty) =>
              match resolveParams recur depth data dynamicParams rest (dynIdx + 1) with
              | none => none
              | some none => some none
              | some (some ts) => some (some (ty :: ts))

/-- `decodeWellFormedTuple` (guess.ts lines 112-446), with structural fuel.
Argument order after the fuel mirrors the source:
`(depth, data, paramIdx, collectedParams, endOfStaticCalldata, dynamicOnlyParams)`. -/
def decodeWellFormedTuple (ext : Ext) : Nat → Nat → Bytes → Nat →
    List DecodedParam → Nat → Option DynamicOnlyParams → Option (Option Frag)
  | 0, _, _, _, _, _, _ => none
  | fuel + 1, depth, data, paramIdx, collectedParams, endOfStaticCalldata,
      dynamicOnlyParams =>
    let recur : Recur := decodeWellFormedTuple ext fuel
    let paramOffset := paramIdx * 32
    if paramOffset ≥ endOfStaticCalldata then
      -- lines 146-376: reached the end of static calldata; resolve the
      -- dynamic placeholders, then build and test the candidate fragment
      let dynamicParams := collectedParams.filterMap
        (fun p => match p with
          | DecodedParam.dyn d => some d
          | DecodedParam.resolved _ => none)
      match resolveParams recur depth data dynamicParams collectedParams 0 with
      | none => none
      | some none => some none
      | some (some filteredParams) =>
          tryRet ext data (some (some filteredParams)) (fun _ => some none)
    else
      match tryParseOffset data paramOffset with
      | some maybeOffset =>
          let maybeLength := tryParseLength data maybeOffset
          let stepA : Option (Option Frag) :=
            match maybeLength with
            | some l =>
                if gateWithLength dynamicOnlyParams depth then
                  recur depth data (paramIdx + 1)
                    (collectedParams ++ [DecodedParam.dyn ⟨maybeOffset, some l⟩])
                    (min endOfStaticCalldata maybeOffset) dynamicOnlyParams
                else some none
            | none => some none
          tryRet ext data stepA (fun _ =>
            let stepB : Option (Option Frag) :=
              if gateWithoutLength dynamicOnlyParams depth then
                recur depth data (paramIdx + 1)
                  (collectedParams ++ [DecodedParam.dyn ⟨maybeOffset, none⟩])
                  (min endOfStaticCalldata maybeOffset) dynamicOnlyParams
              else some none
            tryRet ext data stepB (fun _ =>
              if staticForbidden dynamicOnlyParams depth then some none
              else
                tryRet ext data
                  (recur depth data (paramIdx + 1)
                    (collectedParams ++ [DecodedParam.resolved ParamTy.bytes32])
                    endOfStaticCalldata dynamicOnlyParams)
                  (fun _ => some none)))
      | none =>
          if staticForbidden dynamicOnlyParams depth then some none
          else
            tryRet ext data
              (recur depth data (paramIdx + 1)
                (collectedParams ++ [DecodedParam.resolved ParamTy.bytes32])
                endOfStaticCalldata dynamicOnlyParams)
              (fun _ => some none)

/-- `traverseOption f l`: `some` of the images when `f` succeeds everywhere. -/
def traverseOption {α β : Type} (f : α → Option β) : List α → Option (List β)
  | [] => some []
  | a :: as =>
      match f a with
      | none => none
      | some b =>
          match traverseOption f as with
          | none => none
          | some bs => some (b :: bs)

/-- Collect a left-to-right sequence of fueled results: fuel exhaustion
(`none`) aborts the model, a JavaScript exception (`some none`) at any point
propagates (later entries never run in the source), otherwise the list of
values. -/
def collectResults {α : Type} : List (Option (Option α)) → Option (Option (List α))
  | [] => some (some [])
  | none :: _ => none
  | some none :: _ => some none
  | some (some x) :: rest =>
      match collectResults rest with
      | none => none
      | some none => some none
      | some (some xs) => some (some (x :: xs))

/-- One component position of the `mergeTypes` tuple branch: the merge of
`types.map(v => v.components[i])`, a failed extraction being the `TypeError`
that the source's recursive call would raise on `undefined`. -/
def mergeColumnAt (recurMerge : List ParamTy → Option (Option ParamTy))
    (types : List ParamTy) (i : Nat) : Option (Option ParamTy) :=
  match traverseOption (fun t => (componentsOf t).bind (fun cs => cs.get? i)) types with
  | none => some none
  | some elems => recurMerge elems

/-- `mergeTypes` (guess.ts lines 460-490), with structural fuel.  A JavaScript
`TypeError` (`components`/`arrayChildren` of a mismatched type being
`undefined`, possibly surfacing inside the nested recursive call) is
`some none`. -/
def mergeTypes : Nat → List ParamTy → Option (Option ParamTy)
  | 0, _ => none
  | fuel + 1, types =>
    let recurMerge := mergeTypes fuel
    match types with
    | [] => some (some (ParamTy.tuple []))
    | t0 :: _ =>
      if types.any isTupleTy then
        match componentsOf t0 with
        | none => some none
        | some cs0 =>
            match collectResults
                ((List.range cs0.length).map (mergeColumnAt recurMerge types)) with
            | none => none
            | some none => some none
            | some (some componentTypes) =>
                some (some (ParamTy.tuple componentTypes))
      else if types.any isArrayTy then
        match traverseOption arrayChildOf types with
        | none => some none
        | some children =>
            match recurMerge children with
            | none => none
            | some none => some none
            | some (some m) => some (some (ParamTy.array m))
      else
        let set := (types.map ParamTy.format).dedup
        if set.length == 1 then some (some t0)
        else if set.contains "bytes" then some (some ParamTy.bytes)
        else if set.contains "uint256" then some (some ParamTy.uint256)
        else some (some ParamTy.bytes32)

/-- Pair each parameter with `vals[idx]`; past the end of `vals` the JavaScript
index read yields `undefined`. -/
def zipValsUndef : List ParamTy → List Val → List (ParamTy × Val)
  | [], _ => []
  | p :: ps, [] => (p, Val.undef) :: zipValsUndef ps []
  | p :: ps, v :: vs => (p, v) :: zipValsUndef ps vs

/-- One entry of the `prettyTypes` map (guess.ts lines 493-529): refine one
parameter type against its decoded value.  `some none` models an exception
(`arrayify`/indexing on a value of the wrong shape); note that the `bytes`
branch catches every error of `toUtf8String` and yields `bytes`. -/
def prettyOne : Ext → Nat → ParamTy → Val → Option (Option ParamTy)
  | _, 0, _, _ => none
  | ext, fuel + 1, param, val =>
    match param with
    | ParamTy.bytes32 =>
        match val with
        | Val.word bs =>
            let leadingZeros := countLeadingZeros bs
            let trailingZeros := countTrailingZeros bs
            if 12 ≤ leadingZeros ∧ leadingZeros ≤ 17 then
              some (some ParamTy.address)
            else if leadingZeros > 16 then some (some ParamTy.uint256)
            else if trailingZeros > 0 then
              some (some (ParamTy.bytesN (32 - trailingZeros)))
            else some (some ParamTy.bytes32)
        | _ => some none
    | ParamTy.bytes =>
        match val with
        | Val.blob bs =>
            some (some (if ext.validUtf8 bs then ParamTy.string else ParamTy.bytes))
        | _ => some (some ParamTy.bytes)
    | ParamTy.array c =>
        match val with
        | Val.arr vs =>
            match collectResults (vs.map (fun child => prettyOne ext fuel c child)) with
            | none => none
            | some none => some none
            | some (some childrenTypes) =>
                match mergeTypes fuel childrenTypes with
                | none => none
                | some none => some none
                | some (some m) => some (some (ParamTy.array m))
        | _ => some none
    | ParamTy.tuple cs =>
        match val with
        | Val.tup vs =>
            match collectResults ((zipValsUndef cs vs).map
                (fun pv => prettyOne ext fuel pv.1 pv.2)) with
            | none => none
            | some none => some none
            | some (some ts) => some (some (ParamTy.tuple ts))
        | _ => if cs.isEmpty then some (some (ParamTy.tuple [])) else some none
    | _ => some (some param)

/-- `prettyTypes(params, vals)` (guess.ts lines 492-530): the per-parameter
refinement map. -/
def prettyTypes (ext : Ext) (fuel : Nat) (params : List ParamTy) (vals : List Val) :
    Option (Option (List ParamTy)) :=
  collectResults ((zipValsUndef params vals).map (fun pv => prettyOne ext fuel pv.1 pv.2))

/-- Fuel budget the drivers hand to the fueled recursions.  Every recursive
call of the source strictly shrinks `(buffer length, remaining head slots)`,
so a quadratic budget is ample; fuel exhaustion (`none`) never occurs with it. -/
def driverFuel (n : Nat) : Nat := (n + 2) * (n + 2)

/-- `wellFormedParse(sig, bytes)` (guess.ts lines 453-540).  Result layers:
`none` = fuel exhaustion (model artifact); `some (.error ())` = a JavaScript
exception escapes (the line 535 `decode` and `prettyTypes` run outside any
`try`); `some (.ok r)` = the JavaScript return value, a fragment being modelled
as its selector bytes paired with its prettified parameter list. -/
def wellFormedParse (ext : Ext) (sig : Bytes) (bytes : Bytes) :
    Option (Except Unit (Option (Bytes × List ParamTy))) :=
  match decodeWellFormedTuple ext (driverFuel bytes.length) 0 bytes 0 [] bytes.length
      none with
  | none => none
  | some none => some (Except.ok none)
  | some (some fragment) =>
      match ext.decode fragment bytes with
      | none => some (Except.error ())
      | some vals =>
          match prettyTypes ext (driverFuel bytes.length) fragment vals with
          | none => none
          | some none => some (Except.error ())
          | some (some ts) => some (Except.ok (some (sig, ts)))

/-- `guessFragment(calldata)` (guess.ts lines 542-547): empty input yields no
fragment; otherwise the first four bytes are the selector and the rest is the
argument region. -/
def guessFragment (ext : Ext) (calldata : Bytes) :
    Option (Except Unit (Option (Bytes × List ParamTy))) :=
  if calldata.length == 0 then some (Except.ok none)
  else wellFormedParse ext (jsSlice calldata 0 4) (calldata.drop 4)

/-- The head-classification states `(paramIdx, collectedParams,
endOfStaticCalldata)` which invocations of `decodeWellFormedTuple` reach from
the start of a buffer, for fixed `data`, `mode` and `depth`.  The three
constructors mirror the three recursive call sites of the head phase
(guess.ts lines 400-407, 414-421, 433-440) with exactly their guards; under an
oracle that rejects every candidate (`testFragment` constantly false) no
branch returns early, so every state of this relation is genuinely visited. -/
inductive Reaches (data : Bytes) (mode : Option DynamicOnlyParams) (depth : Nat) :
    Nat → List DecodedParam → Nat → Prop where
  | init : Reaches data mode depth 0 [] data.length
  | withLength {i : Nat} {C : List DecodedParam} {e off len : Nat} :
      Reaches data mode depth i C e → i * 32 < e →
      tryParseOffset data (i * 32) = some off →
      tryParseLength data off = some len →
      gateWithLength mode depth = true →
      Reaches data mode depth (i + 1) (C ++ [DecodedParam.dyn ⟨off, some len⟩])
        (min e off)
  | withoutLength {i : Nat} {C : List DecodedParam} {e off : Nat} :
      Reaches data mode depth i C e → i * 32 < e →
      tryParseOffset data (i * 32) = some off →
      gateWithoutLength mode depth = true →
      Reaches data mode depth (i + 1) (C ++ [DecodedParam.dyn ⟨off, none⟩])
        (min e off)
  | staticSlot {i : Nat} {C : List DecodedParam} {e : Nat} :
      Reaches data mode depth i C e → i * 32 < e →
      staticForbidden mode depth = false →
      Reaches data mode depth (i + 1)
        (C ++ [DecodedParam.resolved ParamTy.bytes32]) e

/-- The offsets of the dynamic placeholders of an accumulator, in slot order. -/
def placeholderOffsets (C : List DecodedParam) : List Nat :=
  C.filterMap (fun p => match p with
    | DecodedParam.dyn d => some d.offset
    | DecodedParam.resolved _ => none)

/-- Spec section 4.3, bytes-like criterion, clause 1: `k == 0` and the tail is
empty. -/
def specBytesClause1 (len : Nat) (tail : Bytes) : Prop := len = 0 ∧ tail = []

/-- Spec clause 2: `k mod 32 == 0` (with `k > 0`) and either this is the
trailing placeholder or `k == len(tail)`. -/
def specBytesClause2 (len : Nat) (tail : Bytes) (isTrailing : Bool) : Prop :=
  0 < len ∧ len % 32 = 0 ∧ (isTrailing = true ∨ len = tail.length)

/-- Spec clause 3: `k mod 32 ≠ 0` and the last `32 - (k mod 32)` bytes of the
32-byte word of the tail containing byte `k - 1` (the word starting at
`32 * (k / 32)`) are all zero. -/
def specBytesClause3 (len : Nat) (tail : Bytes) : Prop :=
  len % 32 ≠ 0 ∧
    32 - len % 32 ≤
      countTrailingZeros (jsSlice tail (len / 32 * 32) (len / 32 * 32 + 32))

/-- The amended clause 3: the same trailing-zero test on the word starting at
`32 * (k / 32)`, with no requirement `k mod 32 ≠ 0` (only `k > 0`); for
`k mod 32 = 0` it demands 32 zero bytes in the word that follows the blob. -/
def amendedBytesClause3 (len : Nat) (tail : Bytes) : Prop :=
  0 < len ∧
    32 - len % 32 ≤
      countTrailingZeros (jsSlice tail (len / 32 * 32) (len / 32 * 32 + 32))

/-- A concrete external decoder accepting every query with placeholder values
(used to exhibit behaviours of the search that are independent of the
oracle's verdict). -/
def extAccept : Ext where
  decode := fun tys _ => some (tys.map (fun _ => Val.undef))
  validUtf8 := fun _ => true

/-- A 32-byte big-endian word with one-byte value `n`. -/
def smallWord (n : Nat) : Bytes := List.replicate 31 0 ++ [n]

/-- 96-byte buffer: an offset word pointing at its last word, a word that
parses as no offset, and a zero word (the pointed-at length). -/
def bufThree : Bytes := smallWord 64 ++ smallWord 5 ++ smallWord 0

/-- 128-byte buffer whose first two words are offsets discovered in
decreasing order (96, then 64). -/
def bufBackward : Bytes := smallWord 96 ++ smallWord 64 ++ smallWord 0 ++ smallWord 0

/-- 160-byte buffer whose first two words (96 and 128) parse as offsets. -/
def bufFive : Bytes :=
  smallWord 96 ++ smallWord 128 ++ smallWord 0 ++ smallWord 0 ++ smallWord 0

/-- A concrete recursive-decoder stub returning a two-input fragment for
every query (used to witness the dynamic-element array rule). -/
def recurTwoWords : Recur :=
  fun _ _ _ _ _ _ => some (some [ParamTy.bytes32, ParamTy.bytes32])

/-!  A computable model of the external collaborators and of canonical ABI
encoding, used to settle the round-trip claim on a concrete corpus. -/

mutual

/-- Whether an ABI type is dynamically encoded (head = offset). -/
def isDynamicTy : ParamTy → Bool
  | .bytes => true
  | .string => true
  | .array _ => true
  | .tuple cs => isDynamicList cs
  | _ => false

/-- Whether any member of a component list is dynamic. -/
def isDynamicList : List ParamTy → Bool
  | [] => false
  | c :: cs => isDynamicTy c || isDynamicList cs

end

mutual

/-- The size an ABI type occupies in its enclosing head region. -/
def staticSize : ParamTy → Nat
  | .tuple cs => if isDynamicList cs then 32 else staticSizeList cs
  | _ => 32

/-- Total head size of a component list. -/
def staticSizeList : List ParamTy → Nat
  | [] => 0
  | c :: cs => staticSize c + staticSizeList cs

end

/-- Modelled from the spec: the reference ABI decoder behind the oracle
adapter (sections 4.2 and 6), which is an external collaborator and not part
of the repository.  Decodes a sequence of values of the given types whose
heads start at `pos`, offsets being relative to `frame`; out-of-bounds
offsets and lengths inconsistent with the buffer are rejected, as section 6
requires.  Fuel is structural; the driver passes an ample budget. -/
def decodeSeq : Nat → List ParamTy → Bytes → Nat → Nat → Option (List Val)
  | 0, _, _, _, _ => none
  | _ + 1, [], _, _, _ => some []
  | fuel + 1, c :: cs, data, frame, pos =>
    let headVal : Option Val :=
      match c with
      | ParamTy.uint256 | ParamTy.bytes32 | ParamTy.address | ParamTy.bytesN _ =>
          if pos + 32 ≤ data.length then some (Val.word (jsSlice data pos (pos + 32)))
          else none
      | ParamTy.bytes | ParamTy.string =>
          if pos + 32 ≤ data.length then
            let loc := frame + readWord data pos
            if loc + 32 ≤ data.length then
              let k := readWord data loc
              if loc + 32 + k ≤ data.length then
                some (Val.blob (jsSlice data (loc + 32) (loc + 32 + k)))
              else none
            else none
          else none
      | ParamTy.tuple ds =>
          if isDynamicList ds then
            if pos + 32 ≤ data.length then
              let loc := frame + readWord data pos
              (decodeSeq fuel ds data loc loc).map Val.tup
            else none
          else (decodeSeq fuel ds data pos pos).map Val.tup
      | ParamTy.array d =>
          if pos + 32 ≤ data.length then
            let loc := frame + readWord data pos
            if loc + 32 ≤ data.length then
              let k := readWord data loc
              if loc + 32 + k * staticSize d ≤ data.length then
                (decodeSeq fuel (List.replicate k d) data (loc + 32) (loc + 32)).map
                  Val.arr
              else none
            else none
          else none
    match headVal with
    | none => none
    | some v =>
        match decodeSeq fuel cs data frame (pos + staticSize c) with
        | none => none
        | some vs => some (v :: vs)

/-- Modelled from the spec: `decode(types, buf)` of the section 6 oracle
interface (the canonical-text coercion of section 4.2 never fails on values
this decoder produces, so it is the identity here). -/
def abiDecode (tys : List ParamTy) (data : Bytes) : Option (List Val) :=
  decodeSeq ((data.length + 2) * (data.length + 2) + tys.length + 2) tys data 0 0

/-- A UTF-8 continuation byte. -/
def utf8Cont (b : Nat) : Bool := 0x80 ≤ b && b ≤ 0xBF

/-- Modelled from the spec: the "contents are valid UTF-8" check of section
4.4, i.e. the acceptance of `ethers.utils.toUtf8String` (strict RFC 3629:
no overlong forms, no surrogates, no code points beyond U+10FFFF). -/
def utf8Valid : Bytes → Bool
  | [] => true
  | b :: rest =>
    if b ≤ 0x7F then utf8Valid rest
    else if 0xC2 ≤ b && b ≤ 0xDF then
      match rest with
      | c :: rest2 => utf8Cont c && utf8Valid rest2
      | [] => false
    else if b == 0xE0 then
      match rest with
      | c :: d :: rest2 => (0xA0 ≤ c && c ≤ 0xBF) && utf8Cont d && utf8Valid rest2
      | _ => false
    else if b == 0xED then
      match rest with
      | c :: d :: rest2 => (0x80 ≤ c && c ≤ 0x9F) && utf8Cont d && utf8Valid rest2
      | _ => false
    else if (0xE1 ≤ b && b ≤ 0xEF) then
      match rest with
      | c :: d :: rest2 => utf8Cont c && utf8Cont d && utf8Valid rest2
      | _ => false
    else if b == 0xF0 then
      match rest with
      | c :: d :: e :: rest2 =>
          (0x90 ≤ c && c ≤ 0xBF) && utf8Cont d && utf8Cont e && utf8Valid rest2
      | _ => false
    else if (0xF1 ≤ b && b ≤ 0xF3) then
      match rest with
      | c :: d :: e :: rest2 => utf8Cont c && utf8Cont d && utf8Cont e && utf8Valid rest2
      | _ => false
    else if b == 0xF4 then
      match rest with
      | c :: d :: e :: rest2 =>
          (0x80 ≤ c && c ≤ 0x8F) && utf8Cont d && utf8Cont e && utf8Valid rest2
      | _ => false
    else false

/-- The concrete external collaborator assembled from the two models above. -/
def extModel : Ext where
  decode := abiDecode
  validUtf8 := utf8Valid

/-- Source-level ABI types of known fragments for the round-trip corpus
(richer than `ParamTy`: integer widths, `bool`, fixed-size arrays). -/
inductive SrcTy where
  | uintTy (w : Nat) : SrcTy
  | boolTy : SrcTy
  | bytesFix (n : Nat) : SrcTy
  | bytesDyn : SrcTy
  | stringTy : SrcTy
  | tupleTy (cs : List SrcTy) : SrcTy
  | arrDyn (c : SrcTy) : SrcTy
  | arrFix (n : Nat) (c : SrcTy) : SrcTy

/-- Argument values for the corpus fragments. -/
inductive SrcVal where
  | num (n : Nat) : SrcVal
  | bs (l : Bytes) : SrcVal
  | vlist (vs : List SrcVal) : SrcVal

mutual

/-- Whether a source type is dynamically encoded. -/
def isDynS : SrcTy → Bool
  | SrcTy.bytesDyn => true
  | SrcTy.stringTy => true
  | SrcTy.arrDyn _ => true
  | SrcTy.arrFix _ c => isDynS c
  | SrcTy.tupleTy cs => isDynListS cs
  | _ => false

/-- Whether any member of a source component list is dynamic. -/
def isDynListS : List SrcTy → Bool
  | [] => false
  | c :: cs => isDynS c || isDynListS cs

end

mutual

/-- Head size of a source type. -/
def headSizeS : SrcTy → Nat
  | SrcTy.tupleTy cs => if isDynListS cs then 32 else headSizeListS cs
  | SrcTy.arrFix n c => if isDynS c then 32 else n * headSizeS c
  | _ => 32

/-- Total head size of a source component list. -/
def headSizeListS : List SrcTy → Nat
  | [] => 0
  | c :: cs => headSizeS c + headSizeListS cs

end

/-- `k`-byte big-endian encoding of a natural number (mod `256^k`). -/
def natToBytesBE : Nat → Nat → Bytes
  | 0, _ => []
  | k + 1, n => natToBytesBE k (n / 256) ++ [n % 256]

/-- One 32-byte ABI word. -/
def word256 (n : Nat) : Bytes := natToBytesBE 32 n

/-- Right-pad to a multiple of 32 bytes with zeros. -/
def padRight32 (l : Bytes) : Bytes :=
  l ++ List.replicate ((32 - l.length % 32) % 32) 0

/-- Modelled from the spec: the standard canonical ABI encoder producing the
"well-formed calldata" of the glossary (head first, tails second, offsets
relative to the enclosing frame, trailing partial-word zero padding), used by
section 8's round-trip property to build calldata from a known fragment.
Encodes a sequence of typed values into `(heads, tails)`, `tailOffset` being
the offset at which the next tail will land. -/
def encGo : Nat → List (SrcTy × SrcVal) → Nat → Option (Bytes × Bytes)
  | 0, _, _ => none
  | _ + 1, [], _ => some ([], [])
  | fuel + 1, (c, v) :: rest, tailOffset =>
    let body : Option Bytes :=
      match c, v with
      | SrcTy.uintTy _, SrcVal.num n => some (word256 n)
      | SrcTy.boolTy, SrcVal.num n => some (word256 n)
      | SrcTy.bytesFix n, SrcVal.bs l =>
          if l.length == n && n ≤ 32 then some (l ++ List.replicate (32 - n) 0)
          else none
      | SrcTy.bytesDyn, SrcVal.bs l => some (word256 l.length ++ padRight32 l)
      | SrcTy.stringTy, SrcVal.bs l => some (word256 l.length ++ padRight32 l)
      | SrcTy.tupleTy cs, SrcVal.vlist vs =>
          if cs.length == vs.length then
            match encGo fuel (cs.zip vs) (headSizeListS cs) with
            | none => none
            | some (hs, ts) => some (hs ++ ts)
          else none
      | SrcTy.arrDyn c', SrcVal.vlist vs =>
          match encGo fuel ((List.replicate vs.length c').zip vs)
              (headSizeListS (List.replicate vs.length c')) with
          | none => none
          | some (hs, ts) => some (word256 vs.length ++ hs ++ ts)
      | SrcTy.arrFix n c', SrcVal.vlist vs =>
          if vs.length == n then
            match encGo fuel ((List.replicate n c').zip vs)
                (headSizeListS (List.replicate n c')) with
            | none => none
            | some (hs, ts) => some (hs ++ ts)
          else none
      | _, _ => none
    match body with
    | none => none
    | some bodyBytes =>
        match (if isDynS c then encGo fuel rest (tailOffset + bodyBytes.length)
          else encGo fuel rest tailOffset) with
        | none => none
        | some (hs, ts) =>
            if isDynS c then some (word256 tailOffset ++ hs, bodyBytes ++ ts)
            else some (bodyBytes ++ hs, ts)

/-- Modelled from the spec: canonical ABI encoding of a known fragment's
argument tuple (section 8). -/
def abiEncode (cs : List SrcTy) (vs : List SrcVal) : Option Bytes :=
  if cs.length == vs.length then
    match encGo 4096 (cs.zip vs) (headSizeListS cs) with
    | none => none
    | some (hs, ts) => some (hs ++ ts)
  else none

mutual

/-- Modelled from the spec: section 8's shape-equivalence normal form on the
source side — integer widths to `uint256`, `bool` to `uint256`, `string` to
`bytes`, fixed-length arrays inlined as repeated elements. -/
def srcNormOne : SrcTy → ParamTy
  | SrcTy.uintTy _ => ParamTy.uint256
  | SrcTy.boolTy => ParamTy.uint256
  | SrcTy.bytesFix n => if n == 32 then ParamTy.bytes32 else ParamTy.bytesN n
  | SrcTy.bytesDyn => ParamTy.bytes
  | SrcTy.stringTy => ParamTy.bytes
  | SrcTy.tupleTy cs => ParamTy.tuple (srcNormList cs)
  | SrcTy.arrDyn c => ParamTy.array (srcNormOne c)
  | SrcTy.arrFix n c => ParamTy.tuple (List.replicate n (srcNormOne c))

/-- Normal form of a source parameter list, inlining fixed-length arrays. -/
def srcNormList : List SrcTy → List ParamTy
  | [] => []
  | SrcTy.arrFix n c :: rest => List.replicate n (srcNormOne c) ++ srcNormList rest
  | c :: rest => srcNormOne c :: srcNormList rest

end

/-- Top-level normal form: a single-wrapped tuple is identified with its
unwrapped form (section 8, clause b). -/
def srcNormTop : List SrcTy → List ParamTy
  | [SrcTy.tupleTy cs] => srcNormList cs
  | ps => srcNormList ps

mutual

/-- Normal form of a guessed type under the same equivalence (`string` and
`bytes` identified). -/
def gnorm : ParamTy → ParamTy
  | ParamTy.string => ParamTy.bytes
  | ParamTy.tuple cs => ParamTy.tuple (gnormList cs)
  | ParamTy.array c => ParamTy.array (gnorm c)
  | t => t

/-- Normal form of a guessed parameter list. -/
def gnormList : List ParamTy → List ParamTy
  | [] => []
  | c :: cs => gnorm c :: gnormList cs

end

/-- Section 8's shape equivalence between a known fragment's parameters and
a guessed parameter list. -/
def shapeEquivalent (ps : List SrcTy) (guessed : List ParamTy) : Bool :=
  ParamTy.beqList (srcNormTop ps) (gnormList guessed)

/-- The fixed selector prefixed to corpus encodings. -/
def selector : Bytes := [0xde, 0xad, 0xbe, 0xef]

/-- The round-trip check of section 8 for one known fragment: canonically
encode the arguments, run the guesser with the modelled oracle, and require
a fragment that decodes the argument bytes without oracle error and is
shape-equivalent to the original parameter list. -/
def roundTripOk (ps : List SrcTy) (vs : List SrcVal) : Bool :=
  match abiEncode ps vs with
  | none => false
  | some argBytes =>
      match guessFragment extModel (selector ++ argBytes) with
      | some (Except.ok (some (_, guessed))) =>
          (extModel.decode guessed argBytes).isSome && shapeEquivalent ps guessed
      | _ => false

/-- The corpus of known fragment shapes (depth at most three) with their
argument values: scalars, a bare fixed-bytes word, a single wrapped tuple, a
fixed-length array, `bool`, blobs and strings, arrays of scalars, arrays of
static tuples, arrays of dynamic tuples, arrays of strings, and an array of
tuples holding a string and a nested scalar array. -/
def corpus : List (List SrcTy × List SrcVal) :=
  [([SrcTy.uintTy 256], [SrcVal.num 123]),
   ([SrcTy.bytesFix 32],
     [SrcVal.bs (List.replicate 16 0xaa ++ List.replicate 15 0xbb ++ [0xcc])]),
   ([SrcTy.tupleTy [SrcTy.uintTy 256, SrcTy.uintTy 256, SrcTy.bytesFix 4]],
     [SrcVal.vlist [SrcVal.num 10, SrcVal.num 20, SrcVal.bs [0x69, 0x69, 0x69, 0x69]]]),
   ([SrcTy.arrFix 2 (SrcTy.uintTy 256)], [SrcVal.vlist [SrcVal.num 7, SrcVal.num 9]]),
   ([SrcTy.boolTy], [SrcVal.num 1]),
   ([SrcTy.bytesDyn],
     [SrcVal.bs [0x69, 0x69, 0x69, 0x69, 0x12, 0x34, 0x12, 0x34, 0x12, 0x34]]),
   ([SrcTy.stringTy], [SrcVal.bs [97, 98, 99]]),
   ([SrcTy.arrDyn (SrcTy.uintTy 256)],
     [SrcVal.vlist [SrcVal.num 1, SrcVal.num 2, SrcVal.num 3]]),
   ([SrcTy.uintTy 8, SrcTy.uintTy 256], [SrcVal.num 5, SrcVal.num 1000]),
   ([SrcTy.arrDyn (SrcTy.tupleTy [SrcTy.stringTy, SrcTy.uintTy 256])],
     [SrcVal.vlist [SrcVal.vlist [SrcVal.bs [97, 108, 105, 99, 101], SrcVal.num 0x1234],
       SrcVal.vlist [SrcVal.bs [98, 111, 98], SrcVal.num 0x4321]]]),
   ([SrcTy.arrDyn (SrcTy.tupleTy [SrcTy.uintTy 256, SrcTy.uintTy 256, SrcTy.bytesFix 4])],
     [SrcVal.vlist
       [SrcVal.vlist [SrcVal.num 10, SrcVal.num 20, SrcVal.bs [0x69, 0x69, 0x69, 0x69]],
        SrcVal.vlist [SrcVal.num 0x1234, SrcVal.num 0x4321,
          SrcVal.bs [0xca, 0xfe, 0xba, 0xbe]]]]),
   ([SrcTy.arrDyn SrcTy.stringTy],
     [SrcVal.vlist [SrcVal.bs [104, 101, 108, 108, 111],
       SrcVal.bs [119, 111, 114, 108, 100]]]),
   ([SrcTy.arrDyn (SrcTy.tupleTy [SrcTy.stringTy, SrcTy.arrDyn (SrcTy.uintTy 256)])],
     [SrcVal.vlist
       [SrcVal.vlist [SrcVal.bs [97, 108, 105, 99, 101],
          SrcVal.vlist [SrcVal.num 1, SrcVal.num 2, SrcVal.num 3]],
        SrcVal.vlist [SrcVal.bs [98, 111, 98],
          SrcVal.vlist [SrcVal.num 4, SrcVal.num 5, SrcVal.num 6]]]])]

/-- A 32-byte word whose first byte is `b` and whose other bytes are zero; as
a big-endian number this is `b * 2^248`, far past the safe-integer bound, so
`tryParseOffset` and `tryParseLength` always reject it. -/
def bigWord (b : Nat) : Bytes := b :: List.replicate 31 0

/-- Argument region of the claim C9 failing input: a head word pointing at
offset 32, the length word 2, and a 12-word tail made of two 6-word chunks
`[P, 64, 1, 128, bigWord 0x77, bigWord 0x01]` with `P = 129` in the first
chunk and `P = 0` in the second.  The search rejects the bytes criterion
(the tail's first word ends in `0x81`), rejects the offsets branch (129 is
not 32-aligned), splits the tail into the two static chunks, decodes each as
`(bytes32,(bytes32,bytes32,bytes32)[])`, and accepts the fragment
`(bytes32,(bytes32,bytes32,bytes32)[])[]`.  The reference decoder reads the
same fragment differently: the element pointers are the first two tail words
129 and 64, giving a first element whose inner array reads length 1 (from
the `bigWord` bytes at the misaligned position) and a second element whose
inner array reads length 0 (the zero word `P` of the second chunk). -/
def c9data : Bytes :=
  smallWord 32 ++ smallWord 2 ++
  smallWord 129 ++ smallWord 64 ++ smallWord 1 ++ smallWord 128 ++
    bigWord 0x77 ++ bigWord 0x01 ++
  smallWord 0 ++ smallWord 64 ++ smallWord 1 ++ smallWord 128 ++
    bigWord 0x77 ++ bigWord 0x01

/-- The claim C9 failing input: a four-byte selector followed by `c9data`. -/
def c9Calldata : Bytes := [0xde, 0xad, 0xbe, 0xef] ++ c9data

/-!  Theorems. -/

set_option maxRecDepth 1000000

set_option maxHeartbeats 4000000

/-- What `tryParseOffset` accepts: a value strictly beyond the probed
position, inside the buffer, 32-aligned. -/
theorem tryParseOffset_sound {data : Bytes} {pos off : Nat}
    (h : tryParseOffset data pos = some off) :
    pos < off ∧ off < data.length ∧ off % 32 = 0 := by
  simp only [tryParseOffset] at h
  split_ifs at h with h1 h2 h3 h4 <;> cases h
  exact ⟨by omega, by omega, by omega⟩

/-- Claim C2, counterexample: a placeholder of length 32 whose 64-byte tail
ends in a zero word, on a non-trailing placeholder with `len(tail) ≠ 32`, is
classified `bytes` by the code although none of the three spec clauses holds
(clause 3 requires `k mod 32 ≠ 0`, but the code runs the trailing-zero test
for `k mod 32 = 0` as well). -/
theorem c2_bytes_criterion_counterexample :
    bytesLikeCheck 32 (List.replicate 32 1 ++ List.replicate 32 0) false = true ∧
    ¬ (specBytesClause1 32 (List.replicate 32 1 ++ List.replicate 32 0) ∨
       specBytesClause2 32 (List.replicate 32 1 ++ List.replicate 32 0) false ∨
       specBytesClause3 32 (List.replicate 32 1 ++ List.replicate 32 0)) := by
  constructor
  · rfl
  · unfold specBytesClause1 specBytesClause2 specBytesClause3
    decide

/-- Claim C2 (amended): during tail resolution a placeholder of length `len`
with tail bytes `tail` is classified `bytes` iff clause 1 or clause 2 holds,
or the amended clause 3: `len > 0` and the last `32 - (len mod 32)` bytes of
the 32-byte tail word starting at `32 * (len / 32)` are zero — with no
requirement `len mod 32 ≠ 0`. -/
theorem c2_bytes_criterion_amended (len : Nat) (tail : Bytes) (isTrailing : Bool) :
    bytesLikeCheck len tail isTrailing = true ↔
      specBytesClause1 len tail ∨ specBytesClause2 len tail isTrailing ∨
        amendedBytesClause3 len tail := by
  unfold bytesLikeCheck specBytesClause1 specBytesClause2 amendedBytesClause3
  simp only [Bool.or_eq_true, Bool.and_eq_true, beq_iff_eq, decide_eq_true_eq,
    List.length_eq_zero]
  tauto

/-- Claim C3, counterexample: on a buffer whose first two head words are the
offsets 96 and then 64, the head phase reaches (with no mode constraint, and
under an always-rejecting oracle every reachable state is genuinely visited)
a tail-resolution entry — slot offset `2 * 32 ≥ endOfStaticCalldata = 64` —
whose collected placeholder offsets `[96, 64]` are not strictly increasing. -/
theorem c3_offsets_counterexample :
    Reaches bufBackward none 0 2
        [DecodedParam.dyn ⟨96, none⟩, DecodedParam.dyn ⟨64, none⟩] 64 ∧
      2 * 32 ≥ 64 ∧
      placeholderOffsets [DecodedParam.dyn ⟨96, none⟩, DecodedParam.dyn ⟨64, none⟩] =
        [96, 64] ∧
      ¬ List.Pairwise (· < ·) ([96, 64] : List Nat) := by
  refine ⟨?_, by decide, rfl, by decide⟩
  have h0 : Reaches bufBackward none 0 0 [] 128 := Reaches.init
  have h1 : Reaches bufBackward none 0 1 [DecodedParam.dyn ⟨96, none⟩] 96 :=
    Reaches.withoutLength h0 (by decide) (by decide) rfl
  exact Reaches.withoutLength h1 (by decide) (by decide) rfl

/-- Claim C3 (amended): in every state the head phase reaches — in particular
every state entering tail resolution — the accumulator holds one entry per
examined slot, the static bound never exceeds the buffer, and every collected
placeholder's offset strictly exceeds `32 *` (the slot index at which it was
discovered), lies inside the buffer, and is 32-aligned.  The offsets need not
be strictly increasing in discovery order. -/
theorem c3_offsets_amended {data : Bytes} {mode : Option DynamicOnlyParams}
    {depth i : Nat} {C : List DecodedParam} {e : Nat}
    (h : Reaches data mode depth i C e) :
    C.length = i ∧ e ≤ data.length ∧
      ∀ j p, C.get? j = some (DecodedParam.dyn p) →
        j * 32 < p.offset ∧ p.offset < data.length ∧ p.offset % 32 = 0 := by
  induction h with
  | init => exact ⟨rfl, le_refl _, by simp⟩
  | @withLength i0 C0 e0 off len h hlt hoff hlen hgate ih =>
      obtain ⟨hC, he, hj⟩ := ih
      obtain ⟨ho1, ho2, ho3⟩ := tryParseOffset_sound hoff
      refine ⟨by simp [hC], le_trans (min_le_left _ _) he, ?_⟩
      intro j p hjp
      rcases Nat.lt_trichotomy j C0.length with hcase | hcase | hcase
      · rw [List.get?_append hcase] at hjp
        exact hj j p hjp
      · subst hcase
        rw [List.get?_concat_length] at hjp
        cases hjp
        exact ⟨show C0.length * 32 < off by omega, ho2, ho3⟩
      · rw [List.get?_eq_none.mpr (by simp; omega)] at hjp
        cases hjp
  | @withoutLength i0 C0 e0 off h hlt hoff hgate ih =>
      obtain ⟨hC, he, hj⟩ := ih
      obtain ⟨ho1, ho2, ho3⟩ := tryParseOffset_sound hoff
      refine ⟨by simp [hC], le_trans (min_le_left _ _) he, ?_⟩
      intro j p hjp
      rcases Nat.lt_trichotomy j C0.length with hcase | hcase | hcase
      · rw [List.get?_append hcase] at hjp
        exact hj j p hjp
      · subst hcase
        rw [List.get?_concat_length] at hjp
        cases hjp
        exact ⟨show C0.length * 32 < off by omega, ho2, ho3⟩
      · rw [List.get?_eq_none.mpr (by simp; omega)] at hjp
        cases hjp
  | @staticSlot i0 C0 e0 h hlt hforbid ih =>
      obtain ⟨hC, he, hj⟩ := ih
      refine ⟨by simp [hC], he, ?_⟩
      intro j p hjp
      rcases Nat.lt_trichotomy j C0.length with hcase | hcase | hcase
      · rw [List.get?_append hcase] at hjp
        exact hj j p hjp
      · subst hcase
        rw [List.get?_concat_length] at hjp
        cases hjp
      · rw [List.get?_eq_none.mpr (by simp; omega)] at hjp
        cases hjp

/-- Witness for claim C3's amended invariant at a concrete one-step
derivation on `bufThree`. -/
theorem c3_offsets_witness :
    [DecodedParam.dyn ⟨64, none⟩].length = 1 ∧ (64 : Nat) ≤ bufThree.length ∧
      ∀ j p, [DecodedParam.dyn ⟨64, none⟩].get? j = some (DecodedParam.dyn p) →
        j * 32 < p.offset ∧ p.offset < bufThree.length ∧ p.offset % 32 = 0 :=
  c3_offsets_amended
    (show Reaches bufThree none 0 1 [DecodedParam.dyn ⟨64, none⟩] 64 from
      Reaches.withoutLength (@Reaches.init bufThree none 0) (by decide) (by decide) rfl)

/-- Claim C5, counterexample: the three classification gates depend only on
the mode and the depth, never on the slot index, so the restriction is not
confined to the first slot.  Concretely, on `bufThree` under the mode
`{depth 1, assume_length true}` the activation at depth 1 classifies slot 0 as
pointer-with-length but then cannot classify slot 1 (whose word parses as no
offset) as static — `staticForbidden` also holds at that non-first slot — so
the whole constrained decode fails, while the same decode without the mode
classifies slot 1 static and succeeds.  This refutes "at every slot other
than the first one at depth d the full three-way search is available". -/
theorem c5_mode_scope_counterexample :
    staticForbidden (some ⟨1, true⟩) 1 = true ∧
      gateWithoutLength (some ⟨1, true⟩) 1 = false ∧
      decodeWellFormedTuple extAccept 100 1 bufThree 0 [] 96 (some ⟨1, true⟩) =
        some none ∧
      decodeWellFormedTuple extAccept 100 1 bufThree 0 [] 96 none =
        some (some [ParamTy.bytes, ParamTy.bytes32]) :=
  ⟨rfl, rfl, rfl, rfl⟩

/-- Claim C5 (amended): the mode constraint is keyed on the depth, not the
slot.  Without a mode all three classifications are open.  With mode
`{depth d, assume_length b}`, at depth `d` every slot admits only the
pointer-with-length branch when `b` (only pointer-without-length otherwise)
and never static; at any other depth both pointer branches are closed and
only static remains.  (The search passes the mode and depth unchanged through
head recursion and installs `none` or a fresh matching mode in tail
recursions, so a live mode is only consulted at its own depth.) -/
theorem c5_mode_scope_amended (d depth : Nat) (b : Bool) :
    (gateWithLength none depth = true ∧ gateWithoutLength none depth = true ∧
        staticForbidden none depth = false) ∧
      (gateWithLength (some ⟨d, b⟩) d = b ∧
        gateWithoutLength (some ⟨d, b⟩) d = !b ∧
        staticForbidden (some ⟨d, b⟩) d = true) ∧
      (depth ≠ d →
        gateWithLength (some ⟨d, b⟩) depth = false ∧
          gateWithoutLength (some ⟨d, b⟩) depth = false ∧
          staticForbidden (some ⟨d, b⟩) depth = false) := by
  refine ⟨⟨rfl, rfl, rfl⟩, ⟨?_, ?_, ?_⟩, fun hne => ⟨?_, ?_, ?_⟩⟩ <;>
    simp [gateWithLength, gateWithoutLength, staticForbidden, *]

/-- Witness for claim C5's amended statement at `d = 0`, `depth = 1`. -/
theorem c5_mode_scope_witness :
    gateWithLength (some ⟨0, true⟩) 1 = false ∧
      gateWithoutLength (some ⟨0, true⟩) 1 = false ∧
      staticForbidden (some ⟨0, true⟩) 1 = false :=
  (c5_mode_scope_amended 0 1 true).2.2 (by decide)

/-- Claim C6 (confirmed): the prettifier's refinement of a `bytes32` parameter
against its decoded 32-byte value, case by case: `address` for 12-17 leading
zero bytes, `uint256` for more than 16 (when not address), `bytesN` with
`N = 32 - trailing` when neither applies and a trailing zero byte exists,
`bytes32` otherwise. -/
theorem c6_pretty_bytes32 (ext : Ext) (fuel : Nat) (v : Bytes) (h : v.length = 32) :
    (12 ≤ countLeadingZeros v ∧ countLeadingZeros v ≤ 17 →
        prettyOne ext (fuel + 1) ParamTy.bytes32 (Val.word v) =
          some (some ParamTy.address)) ∧
      (16 < countLeadingZeros v →
        ¬ (12 ≤ countLeadingZeros v ∧ countLeadingZeros v ≤ 17) →
        prettyOne ext (fuel + 1) ParamTy.bytes32 (Val.word v) =
          some (some ParamTy.uint256)) ∧
      (¬ (12 ≤ countLeadingZeros v ∧ countLeadingZeros v ≤ 17) →
        ¬ 16 < countLeadingZeros v → 0 < countTrailingZeros v →
        prettyOne ext (fuel + 1) ParamTy.bytes32 (Val.word v) =
          some (some (ParamTy.bytesN (32 - countTrailingZeros v)))) ∧
      (¬ (12 ≤ countLeadingZeros v ∧ countLeadingZeros v ≤ 17) →
        ¬ 16 < countLeadingZeros v → countTrailingZeros v = 0 →
        prettyOne ext (fuel + 1) ParamTy.bytes32 (Val.word v) =
          some (some ParamTy.bytes32)) := by
  refine ⟨fun h1 => ?_, fun h1 h2 => ?_, fun h1 h2 h3 => ?_, fun h1 h2 h3 => ?_⟩ <;>
    (simp only [prettyOne]; split_ifs <;> first | rfl | omega)

/-- Witness for claim C6 at the word `0x00…0001` (31 leading zero bytes). -/
theorem c6_pretty_bytes32_witness :
    prettyOne extAccept 1 ParamTy.bytes32 (Val.word (smallWord 1)) =
      some (some ParamTy.uint256) :=
  (c6_pretty_bytes32 extAccept 0 (smallWord 1) (by decide)).2.1 (by decide) (by decide)

/-- `l.get? i` succeeds below the length and returns the `getD` value. -/
theorem get?_eq_getD {α : Type} :
    ∀ (l : List α) (i : Nat) (d : α), i < l.length → l.get? i = some (l.getD i d)
  | [], i, d, h => by simp at h
  | _ :: _, 0, _, _ => rfl
  | _ :: as, i + 1, d, h => by
      simp only [List.get?_cons_succ, List.getD_cons_succ]
      exact get?_eq_getD as i d (by simpa using h)

/-- `traverseOption` over a function constant on the list. -/
theorem traverseOption_const {α β : Type} (f : α → Option β) (b : β) :
    ∀ (l : List α), (∀ x ∈ l, f x = some b) →
      traverseOption f l = some (l.map (fun _ => b))
  | [], _ => rfl
  | a :: as, h => by
      have ha : f a = some b := h a (List.mem_cons_self a as)
      have hrest := traverseOption_const f b as
        (fun x hx => h x (List.mem_cons_of_mem a hx))
      simp [traverseOption, ha, hrest]

/-- `collectResults` over a map whose entries all succeed. -/
theorem collectResults_map_eq {α β : Type} (g : α → Option (Option β)) (f : α → β) :
    ∀ (l : List α), (∀ a ∈ l, g a = some (some (f a))) →
      collectResults (l.map g) = some (some (l.map f))
  | [], _ => rfl
  | a :: as, h => by
      have ha := h a (List.mem_cons_self a as)
      have hrest := collectResults_map_eq g f as
        (fun x hx => h x (List.mem_cons_of_mem a hx))
      simp [collectResults, ha, hrest]

/-- Reading every position of a list back off by `getD` over its range. -/
theorem map_getD_range {α : Type} (d : α) :
    ∀ (l : List α), (List.range l.length).map (fun i => l.getD i d) = l
  | [] => rfl
  | a :: as => by
      rw [List.length_cons, List.range_succ_eq_map, List.map_cons, List.map_map]
      simp only [List.getD_cons_zero]
      have hfun : ((fun i => (a :: as).getD i d) ∘ (· + 1)) = fun i => as.getD i d := by
        funext i
        simp [List.getD_cons_succ]
      rw [hfun, map_getD_range d as]

/-- `dedup` of a nonempty constant list. -/
theorem dedup_const {α : Type} [DecidableEq α] (a : α) :
    ∀ (l : List α), l ≠ [] → (∀ x ∈ l, x = a) → l.dedup = [a]
  | [], h, _ => absurd rfl h
  | b :: bs, _, h => by
      have hb : b = a := h b (List.mem_cons_self b bs)
      subst hb
      by_cases hmem : b ∈ bs
      · rw [List.dedup_cons_of_mem hmem]
        exact dedup_const b bs (by rintro rfl; simp at hmem)
          (fun x hx => h x (List.mem_cons_of_mem b hx))
      · rw [List.dedup_cons_of_not_mem hmem]
        have : bs = [] := by
          by_contra hne
          obtain ⟨x, hx⟩ := List.exists_mem_of_ne_nil bs hne
          exact hmem ((h x (List.mem_cons_of_mem b hx)) ▸ hx)
        subst this
        rfl

/-- Every `ParamTy` has positive size. -/
theorem sizeOf_pos_ty : ∀ (t : ParamTy), 0 < sizeOf t := by
  intro t
  cases t <;>
    simp only [ParamTy.uint256.sizeOf_spec, ParamTy.bytes32.sizeOf_spec,
      ParamTy.bytes.sizeOf_spec, ParamTy.string.sizeOf_spec,
      ParamTy.address.sizeOf_spec, ParamTy.bytesN.sizeOf_spec,
      ParamTy.tuple.sizeOf_spec, ParamTy.array.sizeOf_spec] <;> omega

/-- A nonempty list of equal types merges to that type (any fuel covering the
type's size). -/
theorem mergeTypes_const : ∀ (fuel : Nat) (ts : List ParamTy) (t : ParamTy),
    ts ≠ [] → (∀ x ∈ ts, x = t) → sizeOf t ≤ fuel →
    mergeTypes fuel ts = some (some t) := by
  intro fuel
  induction fuel with
  | zero =>
      intro ts t _ _ hsz
      have := sizeOf_pos_ty t
      omega
  | succ fuel ih =>
      intro ts t hne hall hsz
      obtain ⟨t0, rest, rfl⟩ := List.exists_cons_of_ne_nil hne
      have ht0 : t0 = t := hall t0 (List.mem_cons_self _ _)
      subst ht0
      by_cases htup : isTupleTy t0 = true
      · obtain ⟨cs, rfl⟩ : ∃ cs, t0 = ParamTy.tuple cs := by
          cases t0 <;> simp [isTupleTy] at htup ⊢
        have hany : (ParamTy.tuple cs :: rest).any isTupleTy = true := by
          simp [isTupleTy]
        have hper : ∀ i ∈ List.range cs.length,
            mergeColumnAt (mergeTypes fuel) (ParamTy.tuple cs :: rest) i =
              some (some (cs.getD i ParamTy.uint256)) := by
          intro i hi
          have hi' : i < cs.length := List.mem_range.mp hi
          have hx : ∀ x ∈ (ParamTy.tuple cs :: rest),
              (componentsOf x).bind (fun cs' => cs'.get? i) =
                some (cs.getD i ParamTy.uint256) := by
            intro x hxm
            rw [hall x hxm]
            simp only [componentsOf, Option.some_bind]
            exact get?_eq_getD cs i ParamTy.uint256 hi'
          rw [mergeColumnAt, traverseOption_const _ _ _ hx]
          have hmem : cs.getD i ParamTy.uint256 ∈ cs :=
            List.get?_mem (get?_eq_getD cs i ParamTy.uint256 hi')
          have hszlt : sizeOf (cs.getD i ParamTy.uint256) < sizeOf cs :=
            List.sizeOf_lt_of_mem hmem
          have hspec : sizeOf (ParamTy.tuple cs) = 1 + sizeOf cs :=
            ParamTy.tuple.sizeOf_spec cs
          exact ih _ _ (by simp) (by simp) (by omega)
        simp only [mergeTypes, hany, if_true, componentsOf]
        rw [collectResults_map_eq _ (fun i => cs.getD i ParamTy.uint256) _ hper,
          map_getD_range]
      · by_cases harr : isArrayTy t0 = true
        · obtain ⟨c, rfl⟩ : ∃ c, t0 = ParamTy.array c := by
            cases t0 <;> simp [isArrayTy] at harr ⊢
          have hany : (ParamTy.array c :: rest).any isTupleTy = false := by
            rw [List.any_eq_false]
            intro x hx
            rw [hall x hx]
            simp [isTupleTy]
          have hany2 : (ParamTy.array c :: rest).any isArrayTy = true := by
            simp [isArrayTy]
          have hx : ∀ x ∈ (ParamTy.array c :: rest), arrayChildOf x = some c := by
            intro x hx
            rw [hall x hx]
            rfl
          have hspec : sizeOf (ParamTy.array c) = 1 + sizeOf c :=
            ParamTy.array.sizeOf_spec c
          have hrec := ih ((ParamTy.array c :: rest).map (fun _ => c)) c
            (by simp) (by simp) (by omega)
          simp only [mergeTypes, hany, Bool.false_eq_true, if_false, hany2, if_true]
          rw [traverseOption_const _ _ _ hx]
          simp only [hrec]
        · have hany : (t0 :: rest).any isTupleTy = false := by
            rw [List.any_eq_false]
            intro x hx
            rw [hall x hx]
            simpa using htup
          have hany2 : (t0 :: rest).any isArrayTy = false := by
            rw [List.any_eq_false]
            intro x hx
            rw [hall x hx]
            simpa using harr
          have hdedup : ((t0 :: rest).map ParamTy.format).dedup =
              [ParamTy.format t0] := by
            apply dedup_const
            · simp
            · intro x hx
              obtain ⟨y, hy, rfl⟩ := List.mem_map.mp hx
              rw [hall y hy]
          simp only [mergeTypes, hany, Bool.false_eq_true, if_false, hany2, hdedup]
          rfl

/-- Two tuples of equal arity merge component-wise. -/
theorem mergeTypes_tuple_pair (fuel : Nat) (cs ds us : List ParamTy)
    (hd : ds.length = cs.length) (hu : us.length = cs.length)
    (h : ∀ i, i < cs.length →
      mergeTypes fuel [cs.getD i ParamTy.uint256, ds.getD i ParamTy.uint256] =
        some (some (us.getD i ParamTy.uint256))) :
    mergeTypes (fuel + 1) [ParamTy.tuple cs, ParamTy.tuple ds] =
      some (some (ParamTy.tuple us)) := by
  have hany : ([ParamTy.tuple cs, ParamTy.tuple ds]).any isTupleTy = true := by
    simp [isTupleTy]
  have hper : ∀ i ∈ List.range cs.length,
      mergeColumnAt (mergeTypes fuel) [ParamTy.tuple cs, ParamTy.tuple ds] i =
        some (some (us.getD i ParamTy.uint256)) := by
    intro i hi
    have hi' : i < cs.length := List.mem_range.mp hi
    have h1 : cs.get? i = some (cs.getD i ParamTy.uint256) :=
      get?_eq_getD cs i ParamTy.uint256 hi'
    have h2 : ds.get? i = some (ds.getD i ParamTy.uint256) :=
      get?_eq_getD ds i ParamTy.uint256 (by omega)
    simp only [mergeColumnAt, traverseOption, componentsOf, Option.some_bind, h1, h2]
    exact h i hi'
  simp only [mergeTypes, hany, if_true, componentsOf]
  rw [collectResults_map_eq _ (fun i => us.getD i ParamTy.uint256) _ hper]
  rw [show List.range cs.length = List.range us.length by rw [hu]]
  rw [map_getD_range]

/-- Two arrays merge on their element type. -/
theorem mergeTypes_array_pair (fuel : Nat) (c d u : ParamTy)
    (h : mergeTypes fuel [c, d] = some (some u)) :
    mergeTypes (fuel + 1) [ParamTy.array c, ParamTy.array d] =
      some (some (ParamTy.array u)) := by
  have hany : ([ParamTy.array c, ParamTy.array d]).any isTupleTy = false := by
    simp [isTupleTy]
  have hany2 : ([ParamTy.array c, ParamTy.array d]).any isArrayTy = true := by
    simp [isArrayTy]
  have htrav : traverseOption arrayChildOf [ParamTy.array c, ParamTy.array d] =
      some [c, d] := rfl
  simp only [mergeTypes, hany, Bool.false_eq_true, if_false, hany2, if_true, htrav, h]

/-- Disagreeing scalars collapse with the priority `bytes`, then `uint256`,
then `bytes32`. -/
theorem mergeTypes_scalar_clash (fuel : Nat) (t0 : ParamTy) (rest : List ParamTy)
    (h1 : (t0 :: rest).any isTupleTy = false)
    (h2 : (t0 :: rest).any isArrayTy = false)
    (h3 : ((t0 :: rest).map ParamTy.format).dedup.length ≠ 1) :
    mergeTypes (fuel + 1) (t0 :: rest) =
      some (some
        (if ((t0 :: rest).map ParamTy.format).dedup.contains "bytes" then ParamTy.bytes
         else if ((t0 :: rest).map ParamTy.format).dedup.contains "uint256" then
           ParamTy.uint256
         else ParamTy.bytes32)) := by
  have h3' : (((t0 :: rest).map ParamTy.format).dedup.length == 1) = false := by
    simpa using h3
  simp only [mergeTypes, h1, Bool.false_eq_true, if_false, h2, h3']
  split_ifs <;> rfl

/-- Claim C7, counterexample: the set `{uint256, bytes}` disagrees and
contains `uint256`, but the code's `bytes` priority fires first, so the merge
is `bytes`, not `uint256` as the claim states. -/
theorem c7_merge_counterexample :
    mergeTypes 2 [ParamTy.uint256, ParamTy.bytes] = some (some ParamTy.bytes) ∧
      ParamTy.bytes ≠ ParamTy.uint256 :=
  ⟨rfl, fun h => ParamTy.noConfusion h⟩

/-- Claim C7 (amended): equal types merge to that type; tuples merge
component-wise and arrays merge on their element type; a disagreeing scalar
set containing `bytes` merges to `bytes`, otherwise one containing `uint256`
merges to `uint256`, and any other scalar disagreement merges to `bytes32`. -/
theorem c7_merge_amended :
    (∀ (fuel : Nat) (ts : List ParamTy) (t : ParamTy), ts ≠ [] →
        (∀ x ∈ ts, x = t) → sizeOf t ≤ fuel → mergeTypes fuel ts = some (some t)) ∧
      (∀ (fuel : Nat) (cs ds us : List ParamTy), ds.length = cs.length →
        us.length = cs.length →
        (∀ i, i < cs.length →
          mergeTypes fuel [cs.getD i ParamTy.uint256, ds.getD i ParamTy.uint256] =
            some (some (us.getD i ParamTy.uint256))) →
        mergeTypes (fuel + 1) [ParamTy.tuple cs, ParamTy.tuple ds] =
          some (some (ParamTy.tuple us))) ∧
      (∀ (fuel : Nat) (c d u : ParamTy), mergeTypes fuel [c, d] = some (some u) →
        mergeTypes (fuel + 1) [ParamTy.array c, ParamTy.array d] =
          some (some (ParamTy.array u))) ∧
      (∀ (fuel : Nat) (t0 : ParamTy) (rest : List ParamTy),
        (t0 :: rest).any isTupleTy = false → (t0 :: rest).any isArrayTy = false →
        ((t0 :: rest).map ParamTy.format).dedup.length ≠ 1 →
        mergeTypes (fuel + 1) (t0 :: rest) =
          some (some
            (if ((t0 :: rest).map ParamTy.format).dedup.contains "bytes" then
              ParamTy.bytes
             else if ((t0 :: rest).map ParamTy.format).dedup.contains "uint256" then
               ParamTy.uint256
             else ParamTy.bytes32))) :=
  ⟨mergeTypes_const, mergeTypes_tuple_pair, mergeTypes_array_pair, mergeTypes_scalar_clash⟩

/-- Witness for claim C7's amended statement: merging two equal array types. -/
theorem c7_merge_witness :
    mergeTypes 2 [ParamTy.array ParamTy.uint256, ParamTy.array ParamTy.uint256] =
      some (some (ParamTy.array ParamTy.uint256)) :=
  c7_merge_amended.2.2.1 1 ParamTy.uint256 ParamTy.uint256 ParamTy.uint256 rfl

/-- On an empty argument buffer the head completes immediately and the empty
candidate is submitted to the oracle. -/
theorem decodeWFT_empty (ext : Ext) (fuel depth : Nat)
    (mode : Option DynamicOnlyParams) (h : 0 < fuel) :
    decodeWellFormedTuple ext fuel depth [] 0 [] 0 mode =
      if testFragment ext [] [] then some (some []) else some none := by
  obtain ⟨f, rfl⟩ : ∃ f, fuel = f + 1 := ⟨fuel - 1, by omega⟩
  simp only [decodeWellFormedTuple]
  norm_num
  rfl

/-- The driver on calldata of one to four bytes: the whole input becomes the
selector (`slice(0, 4)` clamps), the argument region is empty, and — when the
oracle accepts the empty tuple against empty data — the result is a fragment
with zero parameters. -/
theorem guessFragment_bare (ext : Ext) (cd : Bytes) (h1 : 0 < cd.length)
    (h2 : cd.length ≤ 4) (hempty : ext.decode [] [] = some []) :
    guessFragment ext cd = some (Except.ok (some (cd, []))) := by
  have hz : (cd.length == 0) = false := by
    simp only [beq_eq_false_iff_ne, ne_eq]
    omega
  have hsig : jsSlice cd 0 4 = cd := by
    simp only [jsSlice, List.drop_zero]
    exact List.take_of_length_le h2
  have hdrop : cd.drop 4 = [] := by
    rw [List.drop_eq_nil_iff_le]
    omega
  have hdecode : decodeWellFormedTuple ext (driverFuel (List.length ([] : Bytes))) 0
      ([] : Bytes) 0 [] (List.length ([] : Bytes)) none = some (some []) := by
    show decodeWellFormedTuple ext (driverFuel 0) 0 [] 0 [] 0 none = some (some [])
    rw [decodeWFT_empty ext _ 0 none (by simp [driverFuel])]
    simp [testFragment, hempty]
  simp only [guessFragment, hz, Bool.false_eq_true, if_false, hsig, hdrop,
    wellFormedParse, hdecode, hempty, prettyTypes, zipValsUndef, collectResults]

/-- Claim C8 (confirmed): `guessFragment` on empty calldata returns no
fragment, and on calldata of exactly 4 bytes (bare selector, empty argument
region) returns a fragment with zero parameters, provided the external
decoder accepts the empty tuple against empty data (spec: "if the oracle
accepts an empty tuple"). -/
theorem c8_driver_boundaries (ext : Ext) (cd : Bytes) (h4 : cd.length = 4)
    (hempty : ext.decode [] [] = some []) :
    guessFragment ext [] = some (Except.ok none) ∧
      guessFragment ext cd = some (Except.ok (some (cd, []))) :=
  ⟨rfl, guessFragment_bare ext cd (by omega) (by omega) hempty⟩

/-- Witness for claim C8 at a concrete 4-byte calldata. -/
theorem c8_driver_boundaries_witness :
    guessFragment extAccept [] = some (Except.ok none) ∧
      guessFragment extAccept [0, 0, 0, 0] =
        some (Except.ok (some ([0, 0, 0, 0], []))) :=
  c8_driver_boundaries extAccept [0, 0, 0, 0] rfl rfl

/-- Claim C10 (confirmed): for non-empty calldata shorter than 4 bytes the
whole input is treated as the selector (`slice(0, 4)` yields the entire
input), the argument region is empty, and the driver returns a fragment with
zero parameters rather than none — provided the external decoder accepts the
empty tuple against empty data, which the reference decoder does. -/
theorem c10_short_selector (ext : Ext) (cd : Bytes) (h1 : 0 < cd.length)
    (h2 : cd.length < 4) (hempty : ext.decode [] [] = some []) :
    jsSlice cd 0 4 = cd ∧
      guessFragment ext cd = some (Except.ok (some (cd, []))) := by
  refine ⟨?_, guessFragment_bare ext cd h1 (by omega) hempty⟩
  simp only [jsSlice, List.drop_zero]
  exact List.take_of_length_le (by omega)

/-- Witness for claim C10 at the one-byte calldata `[7]`. -/
theorem c10_short_selector_witness :
    jsSlice [7] 0 4 = [7] ∧
      guessFragment extAccept [7] = some (Except.ok (some ([7], []))) :=
  c10_short_selector extAccept [7] (by decide) (by decide) rfl

/-- Claim C4 (confirmed): when a placeholder of length `len` with tail `t` is
not bytes-like, `len(t)/32 > len`, and the first `len` words of `t` parse as
offsets, `resolveOne` combines the two mode-constrained recursions exactly as
claimed: the assume-length result is used whenever it is a fragment (the
no-length result only when it is not), the branch is rejected (`some none`)
unless the chosen fragment has exactly `len` inputs all of one formatted
type — on either path: wrong input count or several formatted types among
exactly `len` inputs each reject, for the assume-length fragment as for the
no-length one — and on success the array of the shared element type is
emitted. -/
theorem c4_dyn_array (recur : Recur) (depth len : Nat) (t : Bytes) (tr : Bool)
    (h1 : bytesLikeCheck len t tr = false)
    (h2 : 32 * len < t.length)
    (h3 : ∀ i, i < len → (tryParseOffset t (i * 32)).isSome = true)
    (a b : Option Frag)
    (ha : recur (depth + 1) t 0 [] t.length (some ⟨depth + 1, true⟩) = some a)
    (hb : recur (depth + 1) t 0 [] t.length (some ⟨depth + 1, false⟩) = some b) :
    (∀ fA, a = some fA → fA.length ≠ len →
        resolveOne recur depth (some len) t tr = some none) ∧
      (∀ fA, a = some fA → fA.length = len →
        (fA.map ParamTy.format).dedup.length ≠ 1 →
        resolveOne recur depth (some len) t tr = some none) ∧
      (∀ e rest, a = some (e :: rest) → (e :: rest).length = len →
        ((e :: rest).map ParamTy.format).dedup.length = 1 →
        resolveOne recur depth (some len) t tr = some (some (ParamTy.array e))) ∧
      (a = none → ∀ fB, b = some fB → fB.length ≠ len →
        resolveOne recur depth (some len) t tr = some none) ∧
      (a = none → ∀ fB, b = some fB → fB.length = len →
        (fB.map ParamTy.format).dedup.length ≠ 1 →
        resolveOne recur depth (some len) t tr = some none) ∧
      (a = none → ∀ e rest, b = some (e :: rest) → (e :: rest).length = len →
        ((e :: rest).map ParamTy.format).dedup.length = 1 →
        resolveOne recur depth (some len) t tr = some (some (ParamTy.array e))) ∧
      (a = none → b = none → resolveOne recur depth (some len) t tr = some none) := by
  have hlt : decide (32 * len < t.length) = true := decide_eq_true h2
  have hoffsets : ((List.range len).map
      (fun paramIdx => tryParseOffset t (paramIdx * 32))).all Option.isSome = true := by
    rw [List.all_eq_true]
    intro x hx
    obtain ⟨i, hi, rfl⟩ := List.mem_map.mp hx
    exact h3 i (List.mem_range.mp hi)
  have hres : resolveOne recur depth (some len) t tr =
      dynArrayOffsets recur depth len t := by
    simp only [resolveOne, h1, Bool.false_eq_true, if_false, hlt, if_true, hoffsets]
  rw [hres]
  unfold dynArrayOffsets
  rw [ha, hb]
  refine ⟨?_, ?_, ?_, ?_, ?_, ?_, ?_⟩
  · rintro fA rfl hlen
    simp only [Option.orElse]
    rw [if_pos hlen]
  · rintro fA rfl hlen hded
    simp only [Option.orElse]
    rw [if_neg (by omega)]
    rw [if_pos hded]
  · rintro e rest rfl hlen hded
    simp only [Option.orElse]
    rw [if_neg (by omega), if_neg (by omega)]
  · rintro rfl fB rfl hlen
    simp only [Option.orElse]
    rw [if_pos hlen]
  · rintro rfl fB rfl hlen hded
    simp only [Option.orElse]
    rw [if_neg (by omega)]
    rw [if_pos hded]
  · rintro rfl e rest rfl hlen hded
    simp only [Option.orElse]
    rw [if_neg (by omega), if_neg (by omega)]
  · rintro rfl rfl
    rfl

/-- Witness for claim C4: a concrete tail whose first two words parse as
offsets, resolved through a stub recursion returning `(bytes32,bytes32)`. -/
theorem c4_dyn_array_witness :
    resolveOne recurTwoWords 0 (some 2) bufFive false =
      some (some (ParamTy.array ParamTy.bytes32)) :=
  (c4_dyn_array recurTwoWords 0 2 bufFive false (by decide) (by decide)
      (by intro i hi; interval_cases i <;> decide)
      (some [ParamTy.bytes32, ParamTy.bytes32])
      (some [ParamTy.bytes32, ParamTy.bytes32]) rfl rfl).2.2.1
    ParamTy.bytes32 [ParamTy.bytes32] rfl (by decide) (by decide)

/-- Claim C1 (confirmed on the formalised corpus): for every calldata built
by canonically ABI-encoding the arguments of a corpus fragment, the guesser
run against the modelled reference oracle returns a fragment whose parameter
list decodes the same argument bytes without oracle error and is
shape-equivalent to the original parameter list. -/
theorem c1_roundtrip : ∀ pv ∈ corpus, roundTripOk pv.1 pv.2 = true := by decide

/-- Witness for claim C1 at the corpus's first fragment, `(uint256)`. -/
theorem c1_roundtrip_witness :
    roundTripOk [SrcTy.uintTy 256] [SrcVal.num 123] = true :=
  c1_roundtrip ([SrcTy.uintTy 256], [SrcVal.num 123]) (List.mem_cons_self _ _)

/-- Claim C9 (refuted): an exception does cross the API boundary.  On
`c9Calldata` the search accepts `(bytes32,(bytes32,bytes32,bytes32)[])[]`,
which the reference oracle decodes with a one-element inner array in the
first element and an empty inner array in the second; the prettifier at
line 535, outside every `try`, then merges `(bytes32,bytes32,bytes32)` with
the empty tuple, reads `components[0]` of the empty tuple as `undefined`,
and raises a `TypeError`, so `guessFragment` surfaces an exception
(`Except.error`) instead of a fragment or none. -/
theorem c9_exception_counterexample :
    guessFragment extModel c9Calldata = some (Except.error ()) := by rfl

end AbiGuess
